import Mathlib

/-!
Shallow embedding of the MacPaw helper programs
`src/Helpers/snitchprot/src/main.rs` (the VPN-to-firewall reconciler) and
`src/Helpers/cleanlog/src/main.rs` (log retention), with proofs of the
specification's claims about them.

Rust strings appearing at the character level (scutil output lines, store
values) are modelled as Lean `String`; where byte-level behaviour matters
(UTF-8 character boundaries in cleanlog's `parse_timestamp`) a Rust `&str`
is modelled as its list of UTF-8 bytes (`List Nat`).  Machine integers
(`u64`) are `Nat` with wrapping arithmetic made explicit mod `2 ^ 64`.
-/

/-- ASCII lowercasing of one character, modelling the effect of Rust
`str::to_lowercase` on the ASCII text scanned by the probe (the markers
"proton" / "Connected" are ASCII). -/
def asciiToLower (c : Char) : Char :=
  if 65 ≤ c.toNat ∧ c.toNat ≤ 90 then Char.ofNat (c.toNat + 32) else c

/-- Rust `line.to_lowercase()`, restricted to ASCII case mapping. -/
def lowerAscii (s : String) : String :=
  String.mk (s.data.map asciiToLower)

/-- Rust `str::contains(pattern)` on character lists: some suffix of `hay`
starts with `needle`. -/
def charsContain (hay needle : List Char) : Bool :=
  match hay with
  | [] => needle.isEmpty
  | c :: t => needle.isPrefixOf (c :: t) || charsContain t needle

/-- Rust `str::contains` on strings. -/
def strContains (hay needle : String) : Bool :=
  charsContain hay.data needle.data

/-- One character of an ASCII decimal number. -/
def isAsciiDigit (c : Char) : Bool :=
  decide (48 ≤ c.toNat) && decide (c.toNat ≤ 57)

/-- Value of an ASCII digit string read left to right. -/
def digitsVal (cs : List Char) : Nat :=
  cs.foldl (fun a c => a * 10 + (c.toNat - 48)) 0

/-- The optional leading plus sign Rust's unsigned integer parser
accepts. -/
def stripPlus (cs : List Char) : List Char :=
  match cs with
  | '+' :: t => t
  | l => l

/-- Rust `str::parse::<u64>()`: an optional leading plus sign, then a
nonempty run of ASCII digits whose value fits in a `u64`; anything else
(empty, stray characters, overflow) is a parse error, modelled as `none`. -/
def parseU64 (s : String) : Option Nat :=
  if (stripPlus s.data).isEmpty then none
  else if (stripPlus s.data).all isAsciiDigit &&
      decide (digitsVal (stripPlus s.data) < 2 ^ 64) then
    some (digitsVal (stripPlus s.data))
  else none

/-- Wrapping `u64` subtraction `a - b`, as Rust release builds compute it
(debug builds would panic on overflow; the deployed semantics wraps). -/
def u64Sub (a b : Nat) : Nat :=
  (a % 2 ^ 64 + 2 ^ 64 - b % 2 ^ 64) % 2 ^ 64

/-- Argument vector of the actuator call that disables Little Snitch
(the `current_state == "connected"` branch of `main`). -/
def littlesnitchDisableArgs : List String :=
  ["/Applications/Little Snitch.app/Contents/Components/littlesnitch",
   "profile", "-d"]

/-- Argument vector of the actuator call that enables the "VPN Off"
profile (the disconnected branch of `main`). -/
def littlesnitchEnableArgs : List String :=
  ["/Applications/Little Snitch.app/Contents/Components/littlesnitch",
   "profile", "-a", "VPN Off"]

/-- The actuator action `main` maps each serialized state to: disable for
"connected", enable "VPN Off" for anything else (the code's `if
current_state == "connected"` / `else`). -/
def actionFor (state : String) : List String :=
  if state == "connected" then littlesnitchDisableArgs
  else littlesnitchEnableArgs

/-- `main`'s probe scan: `output_str.lines().any(|line|
line.to_lowercase().contains("proton") && line.contains("Connected"))`. -/
def scutilShowsConnected (lines : List String) : Bool :=
  lines.any fun line =>
    strContains (lowerAscii line) "proton" && strContains line "Connected"

/-- `let current_state = if vpn_connected { "connected" } else
{ "disconnected" }`. -/
def currentStateOf (lines : List String) : String :=
  if scutilShowsConnected lines then "connected" else "disconnected"

/-- The transition log message `format!("VPN state changed from '{a}' to
'{b}'")`, with the interpolation written out as concatenation. -/
def changeMsg (prev cur : String) : String :=
  "VPN state changed from '" ++ prev ++ "' to '" ++ cur ++ "'"

/-- The fatal errors a cycle of `main` can abort with before acting:
the probe command failing to run, or a persisted `last_refresh_time`
that does not parse as `u64` (both surface through `?` as `Err`,
hence a non-zero process exit). -/
inductive CycleError
  | probeFailed
  | timeParseFailed
deriving DecidableEq

/-- The two persisted preference keys of `APP_ID`, each an optional
string (absent on first run).  `set_preference` always stores strings. -/
structure Store where
  previous_state : Option String
  last_refresh_time : Option String
deriving DecidableEq

/-- One externally visible step of a cycle, in program order: a
`log_message` call or an actuator `Command` invocation (its argument
vector). -/
inductive Event
  | log (msg : String)
  | act (args : List String)
deriving DecidableEq

/-- What one invocation of `main` did: its event sequence, the store it
leaves behind, and `none` for exit 0 / `some e` for a fatal error. -/
structure Trace where
  events : List Event
  store : Store
  result : Option CycleError
deriving DecidableEq

/-- The `force_refresh` computation of `main`: absent key means `true`;
a present key is parsed as `u64` (parse failure aborts the cycle, hence
`none`), then compared via the wrapping subtraction
`now - last_refresh_time >= 60`. -/
def forceRefreshOf (lastRefresh : Option String) (now : Nat) : Option Bool :=
  match lastRefresh with
  | none => some true
  | some s =>
    match parseU64 s with
    | none => none
    | some t => some (decide (60 ≤ u64Sub now t))

/-- The messages logged by `log_message` in an event list. -/
def logsOf (events : List Event) : List String :=
  events.filterMap fun e =>
    match e with
    | .log m => some m
    | .act _ => none

/-- The actuator invocations (argument vectors) in an event list. -/
def actsOf (events : List Event) : List (List String) :=
  events.filterMap fun e =>
    match e with
    | .log _ => none
    | .act a => some a

/-- One reconciliation cycle: the body of snitchprot's `main`.

`probe` is `none` when the scutil command cannot be run (`.output()?`
fails; `String::from_utf8_lossy` itself is total, so decoding never
fails), otherwise the decoded output's lines.  `nowDecision` is the
whole-second unix time read for the `force_refresh` comparison;
`nowPersist` is the second clock reading taken when persisting
`last_refresh_time` (the code calls `SystemTime::now()` twice, with the
actuator command in between).  File I/O of `log_message` and the spawn
of the actuator command are modelled as succeeding; the actuator's exit
status is ignored by the code. -/
def snitchCycle (probe : Option (List String)) (store : Store)
    (nowDecision nowPersist : Nat) : Trace :=
  match probe with
  | none => { events := [], store := store, result := some .probeFailed }
  | some lines =>
    let current_state := currentStateOf lines
    let previous_state := store.previous_state.getD ""
    match forceRefreshOf store.last_refresh_time nowDecision with
    | none => { events := [], store := store, result := some .timeParseFailed }
    | some force_refresh =>
      if current_state != previous_state || force_refresh then
        let events :=
          if current_state != previous_state then
            if current_state == "connected" then
              [Event.log (changeMsg previous_state current_state),
               Event.log "Disabling Little Snitch profile...",
               Event.act littlesnitchDisableArgs,
               Event.log "Little Snitch profile disabled"]
            else
              [Event.log (changeMsg previous_state current_state),
               Event.log "Enabling 'VPN Off' profile...",
               Event.act littlesnitchEnableArgs,
               Event.log "Little Snitch profile 'VPN Off' enabled"]
          else
            if current_state == "connected" then
              [Event.act littlesnitchDisableArgs]
            else
              [Event.act littlesnitchEnableArgs]
        { events := events,
          store := { previous_state := some current_state,
                     last_refresh_time := some (toString nowPersist) },
          result := none }
      else
        { events := [], store := store, result := none }

/-- Result of running a piece of Rust code that may panic (cleanlog's
`parse_timestamp` byte-slices a `&str`, which panics off a character
boundary). -/
inductive RustOutcome (α : Type)
  | ok (a : α)
  | panicked
deriving DecidableEq

/-- A UTF-8 continuation byte: `0x80 ≤ b < 0xC0`. -/
def isUtf8Continuation (b : Nat) : Bool :=
  decide (128 ≤ b) && decide (b < 192)

/-- Rust `str::is_char_boundary(i)` on a byte-list string: true at 0 and
at the length, else true exactly when the byte at `i` is not a
continuation byte. -/
def isCharBoundary (s : List Nat) (i : Nat) : Bool :=
  if i = 0 then true
  else
    match s.get? i with
    | some b => !isUtf8Continuation b
    | none => decide (i = s.length)

/-- Model of chrono's `NaiveDateTime` restricted to what the log
timestamps carry: whole-second civil time with a non-negative year (the
formats in play never emit a negative year). -/
structure NaiveDateTime where
  year : Nat
  month : Nat
  day : Nat
  hour : Nat
  minute : Nat
  second : Nat
deriving DecidableEq

/-- Gregorian leap year. -/
def isLeapYear (y : Nat) : Bool :=
  (decide (y % 4 = 0) && decide (y % 100 ≠ 0)) || decide (y % 400 = 0)

/-- Days in a month of the proleptic Gregorian calendar. -/
def daysInMonth (y m : Nat) : Nat :=
  if m = 2 then (if isLeapYear y then 29 else 28)
  else if m = 4 ∨ m = 6 ∨ m = 9 ∨ m = 11 then 30
  else 31

/-- The calendar validity chrono enforces when building a
`NaiveDateTime` from parsed fields. -/
def validDateTime (t : NaiveDateTime) : Bool :=
  decide (1 ≤ t.month) && decide (t.month ≤ 12) &&
  decide (1 ≤ t.day) && decide (t.day ≤ daysInMonth t.year t.month) &&
  decide (t.hour ≤ 23) && decide (t.minute ≤ 59) && decide (t.second ≤ 59)

/-- The numeric value of an ASCII digit byte, or `none`. -/
def digitVal (b : Nat) : Option Nat :=
  if 48 ≤ b ∧ b ≤ 57 then some (b - 48) else none

/-- Two-digit zero-padded decimal as UTF-8 bytes (chrono `%m`, `%d`,
`%H`, `%M`, `%S` on in-range values). -/
def pad2 (n : Nat) : List Nat :=
  [48 + n / 10, 48 + n % 10]

/-- Four-digit zero-padded decimal as UTF-8 bytes (chrono `%Y` on years
0 through 9999, the only years the claims range over). -/
def pad4 (n : Nat) : List Nat :=
  [48 + n / 1000, 48 + n / 100 % 10, 48 + n / 10 % 10, 48 + n % 10]

/-- The 19 bytes `YYYY-MM-DD HH:MM:SS` of chrono's
`format("%Y-%m-%d %H:%M:%S")`. -/
def formatTimestampBody (t : NaiveDateTime) : List Nat :=
  pad4 t.year ++ [45] ++ pad2 t.month ++ [45] ++ pad2 t.day ++ [32] ++
  pad2 t.hour ++ [58] ++ pad2 t.minute ++ [58] ++ pad2 t.second

/-- snitchprot's `get_timestamp`: `Local::now().format("[%Y-%m-%d
%H:%M:%S]")`, as the UTF-8 bytes of the bracketed timestamp. -/
def get_timestamp (t : NaiveDateTime) : List Nat :=
  91 :: (formatTimestampBody t ++ [93])

/-- The log line snitchprot's `log_message` appends (without the
trailing newline): `writeln!(file, "{ts} {message}")`, i.e. the
timestamp, one space, then the message bytes. -/
def logLine (t : NaiveDateTime) (message : List Nat) : List Nat :=
  get_timestamp t ++ (32 :: message)

/-- The ASCII digit at byte offset `i`, as a number. -/
def digitAt (s : List Nat) (i : Nat) : Option Nat :=
  (s.get? i).bind digitVal

/-- A zero-padded two-digit field starting at byte offset `i`. -/
def field2At (s : List Nat) (i : Nat) : Option Nat := do
  let a ← digitAt s i
  let b ← digitAt s (i + 1)
  pure (a * 10 + b)

/-- chrono's `NaiveDateTime::parse_from_str(s, "%Y-%m-%d %H:%M:%S")` on
the fixed-width 19-byte slice cleanlog extracts: four year digits and
two digits per remaining field at fixed offsets, the literal separators
in between, then the calendar validity check. -/
def parseDateTime19 (s : List Nat) : Option NaiveDateTime :=
  if s.length = 19 ∧ s.get? 4 = some 45 ∧ s.get? 7 = some 45 ∧
      s.get? 10 = some 32 ∧ s.get? 13 = some 58 ∧ s.get? 16 = some 58 then do
    let a ← digitAt s 0
    let b ← digitAt s 1
    let c ← digitAt s 2
    let d ← digitAt s 3
    let mo ← field2At s 5
    let da ← field2At s 8
    let ho ← field2At s 11
    let mi ← field2At s 14
    let se ← field2At s 17
    let t : NaiveDateTime :=
      ⟨((a * 10 + b) * 10 + c) * 10 + d, mo, da, ho, mi, se⟩
    if validDateTime t then some t else none
  else none

/-- cleanlog's `parse_timestamp`: lines shorter than 21 bytes give
`None`; otherwise the byte slice `&line[1..20]` is taken — panicking
when byte index 1 or 20 is not a character boundary, exactly as Rust
slicing does — and handed to the chrono parser. -/
def parse_timestamp (line : List Nat) : RustOutcome (Option NaiveDateTime) :=
  if line.length < 21 then .ok none
  else if isCharBoundary line 1 && isCharBoundary line 20 then
    .ok (parseDateTime19 ((line.drop 1).take 19))
  else .panicked

example : currentStateOf ["* (Connected)   ProtonVPN"] = "connected" := by decide

example : currentStateOf ["* (Disconnected)   ProtonVPN"] = "disconnected" := by
  decide

example : parseU64 "110" = some 110 := by decide

example : forceRefreshOf (some "110") 100 = some true := by decide

example :
    parse_timestamp (logLine ⟨2025, 1, 2, 3, 4, 5⟩ [104, 105]) =
      .ok (some ⟨2025, 1, 2, 3, 4, 5⟩) := by decide

example :
    parse_timestamp ((91 :: List.replicate 20 48) ++ [93]) = .ok none := by decide

example : parse_timestamp ([195, 169] ++ List.replicate 19 48) = .panicked := by
  decide

theorem charsContain_nil (l : List Char) : charsContain l [] = true := by
  cases l <;> rfl

theorem isPrefixOf_append_self (l t : List Char) :
    l.isPrefixOf (l ++ t) = true := by
  induction l with
  | nil => simp [List.isPrefixOf]
  | cons c cs ih => simp [List.isPrefixOf, ih]

theorem charsContain_append (a b c : List Char) :
    charsContain (a ++ (b ++ c)) b = true := by
  induction a with
  | nil =>
    cases b with
    | nil => simpa using charsContain_nil c
    | cons x xs =>
      show charsContain (x :: (xs ++ c)) (x :: xs) = true
      simp [charsContain, isPrefixOf_append_self]
  | cons y ys ih =>
    show charsContain (y :: (ys ++ (b ++ c))) b = true
    simp [charsContain, ih]

theorem strContains_of_split (hay a b c : String) (h : hay = a ++ b ++ c) :
    strContains hay b = true := by
  subst h
  show charsContain (a ++ b ++ c).data b.data = true
  have hd : (a ++ b ++ c).data = a.data ++ (b.data ++ c.data) := by
    simp [String.data_append]
  rw [hd]
  exact charsContain_append a.data b.data c.data

theorem changeMsg_contains_prev (prev cur : String) :
    strContains (changeMsg prev cur) prev = true := by
  apply strContains_of_split _ "VPN state changed from '" prev
      ("' to '" ++ cur ++ "'")
  apply String.ext
  simp [changeMsg, String.data_append, List.append_assoc]

theorem currentStateOf_ne_empty (lines : List String) :
    currentStateOf lines ≠ "" := by
  unfold currentStateOf
  split <;> decide

theorem previous_state_some_of_eq (lines : List String) (store : Store)
    (heq : currentStateOf lines = store.previous_state.getD "") :
    store.previous_state = some (currentStateOf lines) := by
  cases h : store.previous_state with
  | none =>
    rw [h] at heq
    exact absurd heq (currentStateOf_ne_empty lines)
  | some v =>
    rw [h] at heq
    simp at heq
    rw [heq]

theorem cycle_probe_none (store : Store) (now1 now2 : Nat) :
    snitchCycle none store now1 now2 =
      { events := [], store := store, result := some CycleError.probeFailed } :=
  rfl

theorem cycle_time_parse_fail (lines : List String) (store : Store)
    (now1 now2 : Nat)
    (hb : forceRefreshOf store.last_refresh_time now1 = none) :
    snitchCycle (some lines) store now1 now2 =
      { events := [], store := store,
        result := some CycleError.timeParseFailed } := by
  simp [snitchCycle, hb]

theorem cycle_transition_connected (lines : List String) (store : Store)
    (now1 now2 : Nat) (b : Bool)
    (hb : forceRefreshOf store.last_refresh_time now1 = some b)
    (hcur : currentStateOf lines = "connected")
    (hne : store.previous_state.getD "" ≠ "connected") :
    snitchCycle (some lines) store now1 now2 =
      { events :=
          [Event.log (changeMsg (store.previous_state.getD "") "connected"),
           Event.log "Disabling Little Snitch profile...",
           Event.act littlesnitchDisableArgs,
           Event.log "Little Snitch profile disabled"],
        store := { previous_state := some "connected",
                   last_refresh_time := some (toString now2) },
        result := none } := by
  have hbn : ("connected" != store.previous_state.getD "") = true :=
    bne_iff_ne.mpr (Ne.symm hne)
  simp [snitchCycle, hb, hcur, hbn]

theorem cycle_transition_disconnected (lines : List String) (store : Store)
    (now1 now2 : Nat) (b : Bool)
    (hb : forceRefreshOf store.last_refresh_time now1 = some b)
    (hcur : currentStateOf lines = "disconnected")
    (hne : store.previous_state.getD "" ≠ "disconnected") :
    snitchCycle (some lines) store now1 now2 =
      { events :=
          [Event.log (changeMsg (store.previous_state.getD "") "disconnected"),
           Event.log "Enabling 'VPN Off' profile...",
           Event.act littlesnitchEnableArgs,
           Event.log "Little Snitch profile 'VPN Off' enabled"],
        store := { previous_state := some "disconnected",
                   last_refresh_time := some (toString now2) },
        result := none } := by
  have hbn : ("disconnected" != store.previous_state.getD "") = true :=
    bne_iff_ne.mpr (Ne.symm hne)
  simp [snitchCycle, hb, hcur, hbn]

theorem cycle_refresh (lines : List String) (store : Store) (now1 now2 : Nat)
    (hb : forceRefreshOf store.last_refresh_time now1 = some true)
    (heq : currentStateOf lines = store.previous_state.getD "") :
    snitchCycle (some lines) store now1 now2 =
      { events := [Event.act (actionFor (currentStateOf lines))],
        store := { previous_state := some (currentStateOf lines),
                   last_refresh_time := some (toString now2) },
        result := none } := by
  by_cases h : scutilShowsConnected lines = true
  · have hcur : currentStateOf lines = "connected" := by
      simp [currentStateOf, h]
    have hpe : store.previous_state.getD "" = "connected" :=
      heq.symm.trans hcur
    simp [snitchCycle, hb, hcur, hpe, actionFor]
  · have hcur : currentStateOf lines = "disconnected" := by
      simp [currentStateOf, h]
    have hpe : store.previous_state.getD "" = "disconnected" :=
      heq.symm.trans hcur
    simp [snitchCycle, hb, hcur, hpe, actionFor]

theorem cycle_noop (lines : List String) (store : Store) (now1 now2 : Nat)
    (hb : forceRefreshOf store.last_refresh_time now1 = some false)
    (heq : currentStateOf lines = store.previous_state.getD "") :
    snitchCycle (some lines) store now1 now2 =
      { events := [], store := store, result := none } := by
  have hbn : (currentStateOf lines != store.previous_state.getD "") = false := by
    simp [heq]
  simp [snitchCycle, hb, hbn]

theorem changeMsg_contains_cur (prev cur : String) :
    strContains (changeMsg prev cur) cur = true := by
  apply strContains_of_split _ ("VPN state changed from '" ++ prev ++ "' to '")
      cur "'"
  apply String.ext
  simp [changeMsg, String.data_append, List.append_assoc]

/-- C1: on a transition cycle (probed state differs from the persisted
`previous_state`, and the cycle does not abort on a malformed timestamp),
the reconciler writes a log entry containing both the old and the new
state strings, invokes the actuator exactly once with the action mapped
from the current state, surrounded by log lines, and persists
`previous_state` as the just-probed state and `last_refresh_time` as the
cycle's persist-time timestamp. -/
theorem transition_cycle_behaviour (lines : List String) (store : Store)
    (now1 now2 : Nat) (b : Bool)
    (hb : forceRefreshOf store.last_refresh_time now1 = some b)
    (hne : currentStateOf lines ≠ store.previous_state.getD "") :
    (∃ m ∈ logsOf (snitchCycle (some lines) store now1 now2).events,
        strContains m (store.previous_state.getD "") = true ∧
        strContains m (currentStateOf lines) = true) ∧
    actsOf (snitchCycle (some lines) store now1 now2).events =
      [actionFor (currentStateOf lines)] ∧
    (∃ pre post,
        (snitchCycle (some lines) store now1 now2).events =
          [Event.log (changeMsg (store.previous_state.getD "")
              (currentStateOf lines)),
           Event.log pre,
           Event.act (actionFor (currentStateOf lines)),
           Event.log post]) ∧
    (snitchCycle (some lines) store now1 now2).store =
      { previous_state := some (currentStateOf lines),
        last_refresh_time := some (toString now2) } ∧
    (snitchCycle (some lines) store now1 now2).result = none := by
  by_cases h : scutilShowsConnected lines = true
  · have hcur : currentStateOf lines = "connected" := by
      simp [currentStateOf, h]
    have hne2 : store.previous_state.getD "" ≠ "connected" := fun hh =>
      hne (hcur.trans hh.symm)
    rw [cycle_transition_connected lines store now1 now2 b hb hcur hne2, hcur]
    refine ⟨⟨changeMsg (store.previous_state.getD "") "connected",
        by simp [logsOf], changeMsg_contains_prev _ _,
        changeMsg_contains_cur _ _⟩,
      by simp [actsOf, actionFor],
      ⟨"Disabling Little Snitch profile...", "Little Snitch profile disabled",
        by simp [actionFor]⟩, rfl, rfl⟩
  · have hcur : currentStateOf lines = "disconnected" := by
      simp [currentStateOf, h]
    have hne2 : store.previous_state.getD "" ≠ "disconnected" := fun hh =>
      hne (hcur.trans hh.symm)
    rw [cycle_transition_disconnected lines store now1 now2 b hb hcur hne2,
      hcur]
    refine ⟨⟨changeMsg (store.previous_state.getD "") "disconnected",
        by simp [logsOf], changeMsg_contains_prev _ _,
        changeMsg_contains_cur _ _⟩,
      by simp [actsOf, actionFor],
      ⟨"Enabling 'VPN Off' profile...",
        "Little Snitch profile 'VPN Off' enabled", by simp [actionFor]⟩,
      rfl, rfl⟩

/-- Witness for C1 at a concrete transition: persisted state was
"disconnected", the probe output shows a connected Proton line. -/
theorem transition_cycle_behaviour_witness :
    actsOf (snitchCycle (some ["proton Connected"])
        { previous_state := some "disconnected", last_refresh_time := none }
        0 7).events =
      [actionFor (currentStateOf ["proton Connected"])] :=
  (transition_cycle_behaviour ["proton Connected"]
    { previous_state := some "disconnected", last_refresh_time := none }
    0 7 true (by decide) (by decide)).2.1

/-- C2: when the probed state equals the persisted `previous_state` and
`force_refresh` holds (`last_refresh_time` absent, or the code's
subtraction `now - last_refresh_time` at least 60), exactly one actuator
call occurs with the mapped action, nothing is logged,
`last_refresh_time` is persisted as the persist-time clock reading and
`previous_state` keeps its value. -/
theorem silent_refresh_behaviour (lines : List String) (store : Store)
    (now1 now2 : Nat)
    (heq : currentStateOf lines = store.previous_state.getD "")
    (hfr : store.last_refresh_time = none ∨
      ∃ s t, store.last_refresh_time = some s ∧ parseU64 s = some t ∧
        60 ≤ u64Sub now1 t) :
    (snitchCycle (some lines) store now1 now2).events =
      [Event.act (actionFor (currentStateOf lines))] ∧
    logsOf (snitchCycle (some lines) store now1 now2).events = [] ∧
    (snitchCycle (some lines) store now1 now2).store.previous_state =
      store.previous_state ∧
    (snitchCycle (some lines) store now1 now2).store.last_refresh_time =
      some (toString now2) ∧
    (snitchCycle (some lines) store now1 now2).result = none := by
  have hb : forceRefreshOf store.last_refresh_time now1 = some true := by
    rcases hfr with h | ⟨s, t, hs, ht, hge⟩
    · simp [forceRefreshOf, h]
    · simp [forceRefreshOf, hs, ht, hge]
  rw [cycle_refresh lines store now1 now2 hb heq]
  have hps := previous_state_some_of_eq lines store heq
  exact ⟨rfl, by simp [logsOf], by simp [hps], rfl, rfl⟩

/-- Witness for C2 at a concrete stale refresh: state unchanged,
last refresh 60 seconds ago. -/
theorem silent_refresh_behaviour_witness :
    (snitchCycle (some ["proton Connected"])
        { previous_state := some "connected", last_refresh_time := some "0" }
        60 61).events =
      [Event.act (actionFor (currentStateOf ["proton Connected"]))] :=
  (silent_refresh_behaviour ["proton Connected"]
    { previous_state := some "connected", last_refresh_time := some "0" }
    60 61 (by decide)
    (Or.inr ⟨"0", 0, rfl, by decide, by decide⟩)).1

/-- C3: when the probed state equals the persisted `previous_state` and
the code's elapsed-time value is under 60 seconds, the cycle performs no
actuator call, writes no log, leaves the store untouched and exits
cleanly. -/
theorem noop_cycle_behaviour (lines : List String) (store : Store)
    (now1 now2 : Nat) (s : String) (t : Nat)
    (heq : currentStateOf lines = store.previous_state.getD "")
    (hs : store.last_refresh_time = some s) (ht : parseU64 s = some t)
    (hlt : u64Sub now1 t < 60) :
    snitchCycle (some lines) store now1 now2 =
      { events := [], store := store, result := none } := by
  have hd : decide (60 ≤ u64Sub now1 t) = false :=
    decide_eq_false (Nat.not_le.mpr hlt)
  have hb : forceRefreshOf store.last_refresh_time now1 = some false := by
    simp [forceRefreshOf, hs, ht, hd]
  exact cycle_noop lines store now1 now2 hb heq

theorem parseU64_lt (s : String) (t : Nat) (h : parseU64 s = some t) :
    t < 2 ^ 64 := by
  unfold parseU64 at h
  split at h
  · exact Option.noConfusion h
  · split at h
    · rename_i hcond
      have h2 : digitsVal (stripPlus s.data) < 2 ^ 64 :=
        of_decide_eq_true ((Bool.and_eq_true _ _).mp hcond).2
      have ht2 : some (digitsVal (stripPlus s.data)) = some t := h
      have ht3 : digitsVal (stripPlus s.data) = t := by
        injection ht2
      omega
    · exact Option.noConfusion h

/-- C4 counterexample: `last_refresh_time = "110"` is persisted, the
clock reads 100 (a backward jump of 10 seconds), yet `force_refresh`
computes to `true` — the wrapping u64 subtraction makes the elapsed
value huge — and the cycle re-applies the profile instead of
suppressing the refresh, contrary to the claim. -/
theorem backward_jump_counterexample :
    forceRefreshOf (some "110") 100 = some true ∧
    (snitchCycle (some ["proton Connected"])
        { previous_state := some "connected", last_refresh_time := some "110" }
        100 100).events =
      [Event.act littlesnitchDisableArgs] := by
  exact ⟨by decide, by decide⟩

/-- C4 amended: when the persisted `last_refresh_time` exceeds the
current whole-second unix time (a backward clock jump of magnitude at
most `2 ^ 64 - 60`), the u64 subtraction wraps, `force_refresh`
evaluates to true, and the cycle performs the mapped actuator action
and completes normally — the refresh is triggered, not suppressed. -/
theorem backward_jump_forces_refresh (lines : List String) (store : Store)
    (now1 now2 : Nat) (s : String) (t : Nat)
    (hs : store.last_refresh_time = some s) (ht : parseU64 s = some t)
    (hjump : now1 % 2 ^ 64 < t)
    (hmag : t - now1 % 2 ^ 64 ≤ 2 ^ 64 - 60) :
    forceRefreshOf store.last_refresh_time now1 = some true ∧
    actsOf (snitchCycle (some lines) store now1 now2).events =
      [actionFor (currentStateOf lines)] ∧
    (snitchCycle (some lines) store now1 now2).result = none := by
  have ht64 : t < 2 ^ 64 := parseU64_lt s t ht
  have h60 : 60 ≤ u64Sub now1 t := by
    unfold u64Sub
    have hn : now1 % 2 ^ 64 < 2 ^ 64 := Nat.mod_lt _ (by norm_num)
    have htm : t % 2 ^ 64 = t := Nat.mod_eq_of_lt ht64
    rw [htm]
    have hlt : now1 % 2 ^ 64 + 2 ^ 64 - t < 2 ^ 64 := by omega
    rw [Nat.mod_eq_of_lt hlt]
    omega
  have hd : decide (60 ≤ u64Sub now1 t) = true := decide_eq_true h60
  have hb : forceRefreshOf store.last_refresh_time now1 = some true := by
    simp [forceRefreshOf, hs, ht, hd]
  refine ⟨hb, ?_⟩
  by_cases hcc : currentStateOf lines = store.previous_state.getD ""
  · rw [cycle_refresh lines store now1 now2 hb hcc]
    exact ⟨by simp [actsOf], rfl⟩
  · by_cases h : scutilShowsConnected lines = true
    · have hcur : currentStateOf lines = "connected" := by
        simp [currentStateOf, h]
      have hne2 : store.previous_state.getD "" ≠ "connected" := fun hh =>
        hcc (hcur.trans hh.symm)
      rw [cycle_transition_connected lines store now1 now2 true hb hcur hne2,
        hcur]
      exact ⟨by simp [actsOf, actionFor], rfl⟩
    · have hcur : currentStateOf lines = "disconnected" := by
        simp [currentStateOf, h]
      have hne2 : store.previous_state.getD "" ≠ "disconnected" := fun hh =>
        hcc (hcur.trans hh.symm)
      rw [cycle_transition_disconnected lines store now1 now2 true hb hcur
        hne2, hcur]
      exact ⟨by simp [actsOf, actionFor], rfl⟩

/-- Witness for the amended C4 at the counterexample's input. -/
theorem backward_jump_forces_refresh_witness :
    actsOf (snitchCycle (some ["proton Connected"])
        { previous_state := some "connected", last_refresh_time := some "110" }
        100 100).events =
      [actionFor (currentStateOf ["proton Connected"])] :=
  (backward_jump_forces_refresh ["proton Connected"]
    { previous_state := some "connected", last_refresh_time := some "110" }
    100 100 "110" 110 rfl (by decide) (by decide) (by decide)).2.1

/-- C5 counterexample: a silent-refresh cycle whose decision-time clock
reads 1000 but whose persist-time clock reads 1005 (the actuator command
ran in between) stores `last_refresh_time = "1005"`, not the timestamp
used in the `force_refresh` decision. -/
theorem persist_time_counterexample :
    (snitchCycle (some ["proton Connected"])
        { previous_state := some "connected", last_refresh_time := some "900" }
        1000 1005).store.last_refresh_time = some "1005" ∧
    some "1005" ≠ some (toString 1000) := by
  exact ⟨by decide, by decide⟩

/-- C5 amended: immediately after any successful cycle that performed an
action, the persisted `previous_state` equals the just-observed state
and `last_refresh_time` equals the persist-time clock reading — a second
`SystemTime::now()` call taken after the actuator ran, which may differ
from the whole-second timestamp used in the `force_refresh` decision. -/
theorem post_action_record_invariant (lines : List String) (store : Store)
    (now1 now2 : Nat)
    (hacted : actsOf (snitchCycle (some lines) store now1 now2).events ≠ []) :
    (snitchCycle (some lines) store now1 now2).store =
      { previous_state := some (currentStateOf lines),
        last_refresh_time := some (toString now2) } ∧
    (snitchCycle (some lines) store now1 now2).result = none := by
  cases hb : forceRefreshOf store.last_refresh_time now1 with
  | none =>
    rw [cycle_time_parse_fail lines store now1 now2 hb] at hacted
    simp [actsOf] at hacted
  | some b =>
    by_cases hcc : currentStateOf lines = store.previous_state.getD ""
    · cases b with
      | false =>
        rw [cycle_noop lines store now1 now2 hb hcc] at hacted
        simp [actsOf] at hacted
      | true =>
        rw [cycle_refresh lines store now1 now2 hb hcc]
        exact ⟨rfl, rfl⟩
    · by_cases h : scutilShowsConnected lines = true
      · have hcur : currentStateOf lines = "connected" := by
          simp [currentStateOf, h]
        have hne2 : store.previous_state.getD "" ≠ "connected" := fun hh =>
          hcc (hcur.trans hh.symm)
        rw [cycle_transition_connected lines store now1 now2 b hb hcur hne2,
          hcur]
        exact ⟨rfl, rfl⟩
      · have hcur : currentStateOf lines = "disconnected" := by
          simp [currentStateOf, h]
        have hne2 : store.previous_state.getD "" ≠ "disconnected" := fun hh =>
          hcc (hcur.trans hh.symm)
        rw [cycle_transition_disconnected lines store now1 now2 b hb hcur
          hne2, hcur]
        exact ⟨rfl, rfl⟩

/-- Witness for the amended C5 at a concrete first-run action. -/
theorem post_action_record_invariant_witness :
    (snitchCycle (some ["proton Connected"])
        { previous_state := none, last_refresh_time := none } 0 7).store =
      { previous_state := some (currentStateOf ["proton Connected"]),
        last_refresh_time := some (toString 7) } :=
  (post_action_record_invariant ["proton Connected"]
    { previous_state := none, last_refresh_time := none } 0 7 (by decide)).1

/-- C6: the probe yields "connected" exactly when some line of the
command output contains the provider marker "proton" case-insensitively
and the marker "Connected" with exact case; otherwise — including when
no marker is present at all — it yields "disconnected". -/
theorem probe_connected_characterisation (lines : List String) :
    (currentStateOf lines = "connected" ↔
      ∃ l ∈ lines, strContains (lowerAscii l) "proton" = true ∧
        strContains l "Connected" = true) ∧
    (currentStateOf lines = "disconnected" ↔
      ¬ ∃ l ∈ lines, strContains (lowerAscii l) "proton" = true ∧
        strContains l "Connected" = true) := by
  have hany : scutilShowsConnected lines = true ↔
      ∃ l ∈ lines, strContains (lowerAscii l) "proton" = true ∧
        strContains l "Connected" = true := by
    simp [scutilShowsConnected, List.any_eq_true, Bool.and_eq_true]
  by_cases h : scutilShowsConnected lines = true
  · have he := hany.mp h
    constructor
    · simp [currentStateOf, h, he]
    · simp [currentStateOf, h, he]
  · have he : ¬ ∃ l ∈ lines, strContains (lowerAscii l) "proton" = true ∧
        strContains l "Connected" = true := fun hc => h (hany.mpr hc)
    constructor
    · simp [currentStateOf, h, he]
    · simp [currentStateOf, h, he]

/-- C7: when the probe's external command cannot be run, the cycle
aborts with a fatal (non-zero-exit) error before any log write or
actuator invocation, and the store is exactly what it was. -/
theorem probe_failure_nondestructive (store : Store) (now1 now2 : Nat) :
    snitchCycle none store now1 now2 =
      { events := [], store := store,
        result := some CycleError.probeFailed } :=
  rfl

/-- C8: on the very first run both keys are absent, `previous_state` is
read as the empty string (unequal to either probed state),
`force_refresh` defaults to true, and any probed state triggers the
mapped actuator action and persists both keys. -/
theorem first_run_triggers_action (lines : List String) (now1 now2 : Nat) :
    forceRefreshOf (none : Option String) now1 = some true ∧
    currentStateOf lines ≠ "" ∧
    actsOf (snitchCycle (some lines)
        { previous_state := none, last_refresh_time := none }
        now1 now2).events =
      [actionFor (currentStateOf lines)] ∧
    (snitchCycle (some lines)
        { previous_state := none, last_refresh_time := none }
        now1 now2).store =
      { previous_state := some (currentStateOf lines),
        last_refresh_time := some (toString now2) } ∧
    (snitchCycle (some lines)
        { previous_state := none, last_refresh_time := none }
        now1 now2).result = none := by
  have hb : forceRefreshOf
      ((⟨none, none⟩ : Store)).last_refresh_time now1 = some true := rfl
  refine ⟨rfl, currentStateOf_ne_empty lines, ?_⟩
  by_cases h : scutilShowsConnected lines = true
  · have hcur : currentStateOf lines = "connected" := by
      simp [currentStateOf, h]
    have hne2 : ((⟨none, none⟩ : Store)).previous_state.getD "" ≠
        "connected" := by decide
    rw [cycle_transition_connected lines ⟨none, none⟩ now1 now2 true hb hcur
      hne2, hcur]
    exact ⟨by simp [actsOf, actionFor], rfl, rfl⟩
  · have hcur : currentStateOf lines = "disconnected" := by
      simp [currentStateOf, h]
    have hne2 : ((⟨none, none⟩ : Store)).previous_state.getD "" ≠
        "disconnected" := by decide
    rw [cycle_transition_disconnected lines ⟨none, none⟩ now1 now2 true hb
      hcur hne2, hcur]
    exact ⟨by simp [actsOf, actionFor], rfl, rfl⟩

/-- C9: the failing input evaluated — a 21-byte line starting with the
two-byte UTF-8 character é, so byte index 1 is not a character
boundary. `parse_timestamp` panics on the slice `&line[1..20]` instead
of returning `None` as its documentation states for lines that do not
match the timestamp format. -/
theorem parse_timestamp_panics_off_char_boundary :
    parse_timestamp ([195, 169] ++ List.replicate 19 48) =
      RustOutcome.panicked ∧
    ([195, 169] ++ List.replicate 19 48).length = 21 := by
  exact ⟨by decide, by decide⟩

theorem digitVal_of_le9 (d : Nat) (hd : d ≤ 9) : digitVal (48 + d) = some d := by
  unfold digitVal
  rw [if_pos (by omega)]
  congr 1
  omega

theorem daysInMonth_le_31 (y m : Nat) : daysInMonth y m ≤ 31 := by
  unfold daysInMonth
  split_ifs <;> omega

set_option maxHeartbeats 3200000 in
theorem parseDateTime19_format (t : NaiveDateTime)
    (hv : validDateTime t = true) (hy : t.year ≤ 9999) :
    parseDateTime19 (formatTimestampBody t) = some t := by
  have hbounds : 1 ≤ t.month ∧ t.month ≤ 12 ∧ 1 ≤ t.day ∧
      t.day ≤ daysInMonth t.year t.month ∧ t.hour ≤ 23 ∧ t.minute ≤ 59 ∧
      t.second ≤ 59 := by
    simpa [validDateTime, Bool.and_eq_true, decide_eq_true_eq, and_assoc]
      using hv
  obtain ⟨hm1, hm2, hd1, hd2, hh1, hmi1, hs1⟩ := hbounds
  have hd31 : t.day ≤ 31 := le_trans hd2 (daysInMonth_le_31 _ _)
  have ha0 : digitAt (formatTimestampBody t) 0 = some (t.year / 1000) := by
    rw [show digitAt (formatTimestampBody t) 0 =
      digitVal (48 + t.year / 1000) from rfl]
    exact digitVal_of_le9 _ (by omega)
  have ha1 : digitAt (formatTimestampBody t) 1 = some (t.year / 100 % 10) := by
    rw [show digitAt (formatTimestampBody t) 1 =
      digitVal (48 + t.year / 100 % 10) from rfl]
    exact digitVal_of_le9 _ (by omega)
  have ha2 : digitAt (formatTimestampBody t) 2 = some (t.year / 10 % 10) := by
    rw [show digitAt (formatTimestampBody t) 2 =
      digitVal (48 + t.year / 10 % 10) from rfl]
    exact digitVal_of_le9 _ (by omega)
  have ha3 : digitAt (formatTimestampBody t) 3 = some (t.year % 10) := by
    rw [show digitAt (formatTimestampBody t) 3 =
      digitVal (48 + t.year % 10) from rfl]
    exact digitVal_of_le9 _ (by omega)
  have hmo : field2At (formatTimestampBody t) 5 = some t.month := by
    rw [show field2At (formatTimestampBody t) 5 =
      (digitVal (48 + t.month / 10)).bind (fun a =>
        (digitVal (48 + t.month % 10)).bind (fun b =>
          some (a * 10 + b))) from rfl]
    rw [digitVal_of_le9 _ (by omega), Option.some_bind,
      digitVal_of_le9 _ (by omega), Option.some_bind]
    congr 1
    omega
  have hda : field2At (formatTimestampBody t) 8 = some t.day := by
    rw [show field2At (formatTimestampBody t) 8 =
      (digitVal (48 + t.day / 10)).bind (fun a =>
        (digitVal (48 + t.day % 10)).bind (fun b =>
          some (a * 10 + b))) from rfl]
    rw [digitVal_of_le9 _ (by omega), Option.some_bind,
      digitVal_of_le9 _ (by omega), Option.some_bind]
    congr 1
    omega
  have hho : field2At (formatTimestampBody t) 11 = some t.hour := by
    rw [show field2At (formatTimestampBody t) 11 =
      (digitVal (48 + t.hour / 10)).bind (fun a =>
        (digitVal (48 + t.hour % 10)).bind (fun b =>
          some (a * 10 + b))) from rfl]
    rw [digitVal_of_le9 _ (by omega), Option.some_bind,
      digitVal_of_le9 _ (by omega), Option.some_bind]
    congr 1
    omega
  have hmi : field2At (formatTimestampBody t) 14 = some t.minute := by
    rw [show field2At (formatTimestampBody t) 14 =
      (digitVal (48 + t.minute / 10)).bind (fun a =>
        (digitVal (48 + t.minute % 10)).bind (fun b =>
          some (a * 10 + b))) from rfl]
    rw [digitVal_of_le9 _ (by omega), Option.some_bind,
      digitVal_of_le9 _ (by omega), Option.some_bind]
    congr 1
    omega
  have hse : field2At (formatTimestampBody t) 17 = some t.second := by
    rw [show field2At (formatTimestampBody t) 17 =
      (digitVal (48 + t.second / 10)).bind (fun a =>
        (digitVal (48 + t.second % 10)).bind (fun b =>
          some (a * 10 + b))) from rfl]
    rw [digitVal_of_le9 _ (by omega), Option.some_bind,
      digitVal_of_le9 _ (by omega), Option.some_bind]
    congr 1
    omega
  have hyear : ((t.year / 1000 * 10 + t.year / 100 % 10) * 10 +
      t.year / 10 % 10) * 10 + t.year % 10 = t.year := by
    omega
  unfold parseDateTime19
  rw [if_pos ⟨rfl, rfl, rfl, rfl, rfl, rfl⟩]
  simp only [ha0, ha1, ha2, ha3, hmo, hda, hho, hmi, hse, Option.some_bind,
    bind, Option.pure_def, hyear, hv, if_true]

set_option maxHeartbeats 1600000 in
/-- C10: every log line snitchprot's `log_message` writes — the
`get_timestamp` prefix, one space, then the (single-line) message — is
parsed by cleanlog's `parse_timestamp` into exactly the timestamp that
was formatted, so snitchprot's entries fall under cleanlog's age-based
retention instead of being preserved as unparseable lines. -/
theorem log_line_roundtrip (t : NaiveDateTime) (msg : List Nat)
    (hv : validDateTime t = true) (hy : t.year ≤ 9999) :
    parse_timestamp (logLine t msg) = RustOutcome.ok (some t) := by
  have hline : logLine t msg =
      91 :: (formatTimestampBody t ++ (93 :: 32 :: msg)) := by
    simp [logLine, get_timestamp, List.append_assoc]
  have hblen : (formatTimestampBody t).length = 19 := rfl
  have hlen : (logLine t msg).length = 22 + msg.length := by
    rw [hline]
    simp [hblen]
    omega
  have hg1 : (91 :: (formatTimestampBody t ++ (93 :: 32 :: msg))).get? 1 =
      some (48 + t.year / 1000) := rfl
  have hc1 : isUtf8Continuation (48 + t.year / 1000) = false := by
    unfold isUtf8Continuation
    rw [decide_eq_false (by omega : ¬(128 ≤ 48 + t.year / 1000))]
    rfl
  have hb1 : isCharBoundary (logLine t msg) 1 = true := by
    rw [hline]
    unfold isCharBoundary
    rw [hg1]
    simp [hc1]
  have hg20 : (91 :: (formatTimestampBody t ++ (93 :: 32 :: msg))).get? 20 =
      some 93 := rfl
  have hb20 : isCharBoundary (logLine t msg) 20 = true := by
    rw [hline]
    unfold isCharBoundary
    rw [hg20]
    simp [isUtf8Continuation]
  have hslice : ((logLine t msg).drop 1).take 19 = formatTimestampBody t := by
    rw [hline]
    show (formatTimestampBody t ++ (93 :: 32 :: msg)).take 19 =
      formatTimestampBody t
    rw [show (19 : Nat) = (formatTimestampBody t).length from rfl]
    exact List.take_left _ _
  unfold parse_timestamp
  rw [hlen, if_neg (by omega), hb1, hb20,
    if_pos (show (true && true) = true from rfl), hslice,
    parseDateTime19_format t hv hy]

/-- Witness for C10 at a concrete timestamp and message. -/
theorem log_line_roundtrip_witness :
    parse_timestamp (logLine ⟨2025, 10, 12, 13, 59, 58⟩ [104, 105]) =
      RustOutcome.ok (some ⟨2025, 10, 12, 13, 59, 58⟩) :=
  log_line_roundtrip ⟨2025, 10, 12, 13, 59, 58⟩ [104, 105] (by decide)
    (by decide)

/-- Witness for C3 at a concrete fresh no-op cycle. -/
theorem noop_cycle_behaviour_witness :
    snitchCycle (some ["proton Connected"])
        { previous_state := some "connected", last_refresh_time := some "100" }
        100 100 =
      { events := [],
        store := { previous_state := some "connected",
                   last_refresh_time := some "100" },
        result := none } :=
  noop_cycle_behaviour ["proton Connected"]
    { previous_state := some "connected", last_refresh_time := some "100" }
    100 100 "100" 100 (by decide) rfl (by decide) (by decide)
